import Mathlib

/-
Shallow embedding of the descriptor-resolution and topic-validation core of
`web3/utils/abi.py`, and of the data-filter matching of
`web3/_utils/filters.py`.

Python dictionaries describing ABI elements are modelled by the `ABIElement`
structure; dynamically typed Python argument values by the `Value` inductive;
the external eth-abi / eth-utils codec capabilities (encodability checks,
argument normalization and alignment, selector and signature computation,
decoding, address checksum validation, utf-8 decoding) are modelled as an
abstract `Codec` structure of total functions, following section 6 of the
design document.  Python exceptions become `Except` error values.
-/

/-- A single declared parameter of an ABI element: a name and a type string. -/
structure ABIParam where
  name : String
  type : String
deriving DecidableEq

/-- Runtime argument values supplied by a caller: the dynamically typed Python
values the resolver inspects (ints, strings, byte strings and nested
list-like sequences). -/
inductive Value where
  | vint (i : Int)
  | vstr (s : String)
  | vbytes (bs : List Nat)
  | vlist (items : List Value)

mutual

def valueDecEq : (a b : Value) → Decidable (a = b)
  | .vint a, .vint b =>
    match decEq a b with
    | isTrue h => isTrue (by rw [h])
    | isFalse h => isFalse (fun hh => h (by cases hh; rfl))
  | .vint _, .vstr _ => isFalse (fun h => Value.noConfusion h)
  | .vint _, .vbytes _ => isFalse (fun h => Value.noConfusion h)
  | .vint _, .vlist _ => isFalse (fun h => Value.noConfusion h)
  | .vstr _, .vint _ => isFalse (fun h => Value.noConfusion h)
  | .vstr a, .vstr b =>
    match decEq a b with
    | isTrue h => isTrue (by rw [h])
    | isFalse h => isFalse (fun hh => h (by cases hh; rfl))
  | .vstr _, .vbytes _ => isFalse (fun h => Value.noConfusion h)
  | .vstr _, .vlist _ => isFalse (fun h => Value.noConfusion h)
  | .vbytes _, .vint _ => isFalse (fun h => Value.noConfusion h)
  | .vbytes _, .vstr _ => isFalse (fun h => Value.noConfusion h)
  | .vbytes a, .vbytes b =>
    match decEq a b with
    | isTrue h => isTrue (by rw [h])
    | isFalse h => isFalse (fun hh => h (by cases hh; rfl))
  | .vbytes _, .vlist _ => isFalse (fun h => Value.noConfusion h)
  | .vlist _, .vint _ => isFalse (fun h => Value.noConfusion h)
  | .vlist _, .vstr _ => isFalse (fun h => Value.noConfusion h)
  | .vlist _, .vbytes _ => isFalse (fun h => Value.noConfusion h)
  | .vlist a, .vlist b =>
    match valueListDecEq a b with
    | isTrue h => isTrue (by rw [h])
    | isFalse h => isFalse (fun hh => h (by cases hh; rfl))

def valueListDecEq : (as bs : List Value) → Decidable (as = bs)
  | [], [] => isTrue rfl
  | [], _ :: _ => isFalse (fun h => List.noConfusion h)
  | _ :: _, [] => isFalse (fun h => List.noConfusion h)
  | a :: as, b :: bs =>
    match valueDecEq a b with
    | isTrue h1 =>
      match valueListDecEq as bs with
      | isTrue h2 => isTrue (by rw [h1, h2])
      | isFalse h2 => isFalse (fun hh => h2 (by cases hh; rfl))
    | isFalse h1 => isFalse (fun hh => h1 (by cases hh; rfl))

end

instance : DecidableEq Value := valueDecEq

/-- An interface descriptor, modelling one parsed ABI element dictionary.
The `kind` field models the `"type"` entry (`"function"`, `"constructor"`,
`"fallback"`, `"receive"`, `"event"`, `"error"`, or anything else for a
malformed element); `name` models the optional `"name"` entry, `inputs` the
`"inputs"` entry (absent key modelled as `[]`), and `anonymous` the events'
`"anonymous"` flag. -/
structure ABIElement where
  kind : String
  name : Option String := none
  inputs : List ABIParam := []
  anonymous : Bool := false
deriving DecidableEq

/-- External codec and utility capabilities consumed by the resolver, per
section 6 of the design document (eth-abi `ABICodec` plus the eth-utils
signature helpers).  They are opaque to this core and modelled as an
abstract record of total functions:
`is_encodable` is `ABICodec.is_encodable`;
`get_normalized_abi_inputs` models eth-utils `get_normalized_abi_inputs`
(`none` models the `TypeError` raised on arity/duplicate/missing-slot
mismatch); `get_aligned_abi_inputs` models eth-utils
`get_aligned_abi_inputs` (`none` models its `TypeError`);
`function_abi_to_4byte_selector`, `abi_to_signature` and
`event_abi_to_log_topic` model the homonymous eth-utils signature/selector
computations; `decode` is `ABICodec.decode`; `is_checksum_address` models
the eth-utils address checksum test (keccak-based, hence abstract); and
`decodeUtf8` models Python `bytes.decode("utf-8")`. -/
structure Codec where
  is_encodable : String → Value → Bool
  get_normalized_abi_inputs :
    ABIElement → List Value → List (String × Value) → Option (List Value)
  get_aligned_abi_inputs :
    ABIElement → List Value → Option (List String × List Value)
  function_abi_to_4byte_selector : ABIElement → List Nat
  abi_to_signature : ABIElement → String
  event_abi_to_log_topic : ABIElement → List Nat
  decode : List String → List Nat → List Value
  is_checksum_address : Value → Bool
  decodeUtf8 : List Nat → String

/-- Structured content of the `MismatchedABI` diagnosis message built by
`_mismatched_abi_error_diagnosis`.  The source interpolates these fields
into one f-string (rendering the keyword-argument types through a
set-comprehension dict whose iteration order Python does not specify);
the embedding keeps the structured content instead of the final text. -/
structure Diagnosis where
  function_identifier : String
  collapsed_args : String
  collapsed_kwargs : List (String × String)
  matching_function_signatures : List String
  diagnosis : String
deriving DecidableEq

/-- Errors raised by the resolver: `invalidIdentifier` models
`Web3TypeError`, the three NotFound constructors model
`ABIConstructorNotFound` / `ABIReceiveNotFound` / `ABIFallbackNotFound`,
`mismatchedABI` models `MismatchedABI` carrying its diagnosis,
`invalidAbiType` models the `Web3ValueError` of `_element_abi_to_type`,
and `typeError` models an uncaught `TypeError` escaping from the codec
normalization/alignment calls in `get_abi_element_info`. -/
inductive AbiError where
  | invalidIdentifier (msg : String)
  | constructorNotFound (msg : String)
  | receiveNotFound (msg : String)
  | fallbackNotFound (msg : String)
  | mismatchedABI (diag : Diagnosis)
  | invalidAbiType (kind : String)
  | typeError
deriving DecidableEq

/-- A function identifier as accepted by `get_abi_element`: the `FallbackFn`
and `ReceiveFn` sentinel classes, a text value, or any other (non-text)
Python value such as `None`. -/
inductive Identifier where
  | fallbackFn
  | receiveFn
  | text (s : String)
  | nonText
deriving DecidableEq

/-- Returns `true` exactly on Python byte strings of length 20, modelling
eth-utils `is_binary_address`. -/
def is_binary_address (v : Value) : Bool :=
  match v with
  | .vbytes bs => bs.length == 20
  | _ => false

/-- Python `arg.__class__.__name__` for the modelled value universe. -/
def _argument_class_name (v : Value) : String :=
  match v with
  | .vint _ => "int"
  | .vstr _ => "str"
  | .vbytes _ => "bytes"
  | .vlist _ => "list"

/-- Returns the class name of the argument, or "address" if the argument is
an address (`_get_argument_readable_type`, lines 188-195). -/
def _get_argument_readable_type (c : Codec) (v : Value) : String :=
  if c.is_checksum_address v || is_binary_address v then "address"
  else _argument_class_name v

mutual

/-- Rendering of one element found inside a list-like argument by
`_extract_argument_types` (lines 176-180): nested list-likes recurse into
comma-joined parenthesized groups, other values render by readable type. -/
def _extract_nested_type (c : Codec) : Value → String
  | .vlist deep =>
      "(" ++ String.intercalate "," (_extract_nested_types c deep) ++ ")"
  | .vint i => _get_argument_readable_type c (.vint i)
  | .vstr s => _get_argument_readable_type c (.vstr s)
  | .vbytes bs => _get_argument_readable_type c (.vbytes bs)

/-- Element-wise rendering of the members of a list-like argument. -/
def _extract_nested_types (c : Codec) : List Value → List String
  | [] => []
  | v :: vs => _extract_nested_type c v :: _extract_nested_types c vs

end

/-- String representation of the types of a list of arguments
(`_extract_argument_types`, lines 166-185): list-like arguments are
comma-joined element-wise (nested list-likes parenthesized recursively),
other arguments render by readable type; the results are comma-joined. -/
def _extract_argument_types (c : Codec) (args : List Value) : String :=
  String.intercalate "," (args.map (fun arg =>
    match arg with
    | .vlist nested => String.intercalate "," (_extract_nested_types c nested)
    | v => _get_argument_readable_type c v))

/-- The three-way diagnosis sentence chosen by
`_mismatched_abi_error_diagnosis` (lines 139-149); empty when none of the
three branches applies. -/
def _diagnosis_note (arg_count_matches encoding_matches : Nat) : String :=
  if arg_count_matches = 0 then
    "Function invocation failed due to improper number of arguments."
  else if encoding_matches = 0 then
    "Function invocation failed due to no matching argument types."
  else if encoding_matches > 1 then
    "Ambiguous argument encoding. Provided arguments can be encoded to multiple functions matching this call."
  else ""

/-- Structured diagnosis produced when a function ABI lookup fails
(`_mismatched_abi_error_diagnosis`, lines 125-163). -/
def _mismatched_abi_error_diagnosis (c : Codec) (function_identifier : String)
    (matching_function_signatures : List String)
    (arg_count_matches encoding_matches : Nat)
    (args : List Value) (kwargs : List (String × Value)) : Diagnosis :=
  { function_identifier := function_identifier
    collapsed_args := _extract_argument_types c args
    collapsed_kwargs := kwargs.map (fun kv =>
      (kv.1, _extract_argument_types c [Value.vlist [kv.2]]))
    matching_function_signatures := matching_function_signatures
    diagnosis := _diagnosis_note arg_count_matches encoding_matches }

/-- Modelled from the spec: external eth-utils `filter_abi_by_type` — keeps
the descriptors whose type equals the requested type string. -/
def filter_abi_by_type (t : String) (contract_abi : List ABIElement) :
    List ABIElement :=
  contract_abi.filter (fun abi => abi.kind == t)

/-- Modelled from the spec: external eth-utils `filter_abi_by_name` — step 5
of the resolution algorithm keeps Function/Event/Error descriptors whose
name equals the identifier (exact, case-sensitive match). -/
def filter_abi_by_name (name : String) (contract_abi : List ABIElement) :
    List ABIElement :=
  contract_abi.filter (fun abi =>
    (abi.kind == "function" || abi.kind == "event" || abi.kind == "error") &&
      abi.name == some name)

/-- Keeps the descriptors that are not fallback or receive and whose input
arity equals the requested argument count (`_filter_by_argument_count`,
lines 98-107). -/
def _filter_by_argument_count (num_arguments : Nat)
    (contract_abi : List ABIElement) : List ABIElement :=
  contract_abi.filter (fun abi =>
    abi.kind != "fallback" && abi.kind != "receive" &&
      abi.inputs.length == num_arguments)

/-- Check if the provided arguments can be encoded with the element ABI
(`check_if_arguments_can_be_encoded`, lines 497-557): fallback and receive
elements always report encodable; a normalization failure yields false;
then the declared arity must equal the normalized argument count, alignment
must succeed, and every aligned (type, value) pair must be encodable. -/
def check_if_arguments_can_be_encoded (c : Codec) (abi_element : ABIElement)
    (args : List Value) (kwargs : List (String × Value)) : Bool :=
  if abi_element.kind == "fallback" || abi_element.kind == "receive" then
    true
  else
    match c.get_normalized_abi_inputs abi_element args kwargs with
    | none => false
    | some arguments =>
      if abi_element.inputs.length != arguments.length then false
      else
        match c.get_aligned_abi_inputs abi_element arguments with
        | none => false
        | some (types, aligned_args) =>
          (types.zip aligned_args).all (fun ta => c.is_encodable ta.1 ta.2)

/-- Keeps the descriptors whose arguments can be encoded
(`_filter_by_encodability`, lines 110-122). -/
def _filter_by_encodability (c : Codec) (contract_abi : List ABIElement)
    (args : List Value) (kwargs : List (String × Value)) : List ABIElement :=
  contract_abi.filter (fun function_abi =>
    check_if_arguments_can_be_encoded c function_abi args kwargs)

/-- Convert an ABI element to its respective type (`_element_abi_to_type`,
lines 198-218); all six recognized type tags pass through unchanged, any
other tag raises `Web3ValueError`. -/
def _element_abi_to_type (element_abi : ABIElement) :
    Except AbiError ABIElement :=
  if element_abi.kind == "function" || element_abi.kind == "constructor" ||
      element_abi.kind == "fallback" || element_abi.kind == "receive" ||
      element_abi.kind == "event" || element_abi.kind == "error" then
    Except.ok element_abi
  else
    Except.error (AbiError.invalidAbiType element_abi.kind)

/-- Return the constructor function ABI from the contract ABI
(`get_constructor_function_abi`, lines 393-426): the first element of
type constructor, or `ABIConstructorNotFound` when there is none. -/
def get_constructor_function_abi (contract_abi : List ABIElement) :
    Except AbiError ABIElement :=
  match filter_abi_by_type "constructor" contract_abi with
  | [] => Except.error (AbiError.constructorNotFound
      "No constructor function was found in the contract ABI.")
  | first :: _ =>
    if first.kind == "constructor" then Except.ok first
    else Except.error (AbiError.constructorNotFound
      "No constructor function was found in the contract ABI.")

/-- Return the receive function ABI from the contract ABI
(`get_receive_function_abi`, lines 429-460). -/
def get_receive_function_abi (contract_abi : List ABIElement) :
    Except AbiError ABIElement :=
  match filter_abi_by_type "receive" contract_abi with
  | [] => Except.error (AbiError.receiveNotFound
      "No receive function was found in the contract ABI.")
  | first :: _ =>
    if first.kind == "receive" then Except.ok first
    else Except.error (AbiError.receiveNotFound
      "No receive function was found in the contract ABI.")

/-- Return the fallback function ABI from the contract ABI
(`get_fallback_function_abi`, lines 463-494). -/
def get_fallback_function_abi (contract_abi : List ABIElement) :
    Except AbiError ABIElement :=
  match filter_abi_by_type "fallback" contract_abi with
  | [] => Except.error (AbiError.fallbackNotFound
      "No fallback function was found in the contract ABI.")
  | first :: _ =>
    if first.kind == "fallback" then Except.ok first
    else Except.error (AbiError.fallbackNotFound
      "No fallback function was found in the contract ABI.")

/-- The ordinary-name branch of `get_abi_element` (lines 363-390): name
filtering, arity filtering, the zero-argument fast path, encodability
filtering, and the `MismatchedABI` diagnosis on failure. -/
def _get_abi_element_by_name (c : Codec) (abi : List ABIElement) (s : String)
    (args : List Value) (kwargs : List (String × Value)) :
    Except AbiError ABIElement :=
  let filtered_abis_by_name := filter_abi_by_name s abi
  let arg_count := args.length + kwargs.length
  let abi_element_matches :=
    _filter_by_argument_count arg_count filtered_abis_by_name
  match abi_element_matches, args.isEmpty && kwargs.isEmpty with
  | [only], true => _element_abi_to_type only
  | arity_matches, _ =>
    let elements_with_encodable_args :=
      _filter_by_encodability c arity_matches args kwargs
    match elements_with_encodable_args with
    | [only] => _element_abi_to_type only
    | encodables =>
      Except.error (AbiError.mismatchedABI
        (_mismatched_abi_error_diagnosis c s
          (filtered_abis_by_name.map c.abi_to_signature)
          arity_matches.length encodables.length args kwargs))

/-- Return the interface for an ABI element which matches the provided
identifier and arguments (`get_abi_element`, lines 293-390).  The sentinel
checks, the non-text identifier check and the constructor check happen in
source order; the ordinary-name branch is `_get_abi_element_by_name`. -/
def get_abi_element (c : Codec) (abi : List ABIElement) (fid : Identifier)
    (args : List Value) (kwargs : List (String × Value)) :
    Except AbiError ABIElement :=
  if fid = Identifier.fallbackFn ∨ fid = Identifier.text "fallback" then
    get_fallback_function_abi abi
  else if fid = Identifier.receiveFn ∨ fid = Identifier.text "receive" then
    get_receive_function_abi abi
  else
    match fid with
    | Identifier.text s =>
      if s = "constructor" then get_constructor_function_abi abi
      else _get_abi_element_by_name c abi s args kwargs
    | _ => Except.error (AbiError.invalidIdentifier
        "Unsupported function identifier")

/-- Hex digits used by `encode_hex`. -/
def _nibble_to_hex (n : Nat) : String :=
  match n with
  | 0 => "0" | 1 => "1" | 2 => "2" | 3 => "3" | 4 => "4"
  | 5 => "5" | 6 => "6" | 7 => "7" | 8 => "8" | 9 => "9"
  | 10 => "a" | 11 => "b" | 12 => "c" | 13 => "d" | 14 => "e"
  | _ => "f"

/-- Modelled from the spec boundary: eth-utils `encode_hex` — renders a byte
sequence as a 0x-prefixed lowercase hex string. -/
def encode_hex (bs : List Nat) : String :=
  "0x" ++ String.join (bs.map (fun b =>
    _nibble_to_hex (b / 16 % 16) ++ _nibble_to_hex (b % 16)))

/-- The result bundle of `get_abi_element_info`: the matched ABI, its hex
selector, and the aligned arguments (eth-typing `ABIElementInfo`). -/
structure ABIElementInfo where
  abi : ABIElement
  selector : String
  arguments : List Value
deriving DecidableEq

/-- Information about the function ABI, selector and input arguments
(`get_abi_element_info`, lines 221-290): resolves the element, computes its
selector, and for non-fallback, non-receive elements normalizes and aligns
the supplied arguments; fallback and receive elements get empty arguments. -/
def get_abi_element_info (c : Codec) (abi : List ABIElement)
    (fid : Identifier) (args : List Value) (kwargs : List (String × Value)) :
    Except AbiError ABIElementInfo :=
  match get_abi_element c abi fid args kwargs with
  | Except.error e => Except.error e
  | Except.ok fn_abi =>
    let fn_selector := encode_hex (c.function_abi_to_4byte_selector fn_abi)
    if fn_abi.kind == "fallback" || fn_abi.kind == "receive" then
      Except.ok { abi := fn_abi, selector := fn_selector, arguments := [] }
    else
      match c.get_normalized_abi_inputs fn_abi args kwargs with
      | none => Except.error AbiError.typeError
      | some fn_inputs =>
        match c.get_aligned_abi_inputs fn_abi fn_inputs with
        | none => Except.error AbiError.typeError
        | some (_, aligned_fn_inputs) =>
          Except.ok { abi := fn_abi, selector := fn_selector,
                      arguments := aligned_fn_inputs }

/-- A log topic as it arrives from a log receipt: either a hex string or a
raw byte string (`HexBytes`). -/
inductive Topic where
  | hexStr (s : String)
  | bytes (bs : List Nat)
deriving DecidableEq

/-- Errors raised by the topic validator: `mismatchedABI` models
`MismatchedABI` with its message; `invalidHex` models the `ValueError`
raised by eth-utils hex decoding on a malformed hex-string topic. -/
inductive TopicError where
  | mismatchedABI (msg : String)
  | invalidHex
deriving DecidableEq

/-- Value of one hex digit character, or `none` for a non-hex character. -/
def _hex_digit_value (ch : Char) : Option Nat :=
  if '0' ≤ ch ∧ ch ≤ '9' then some (ch.toNat - '0'.toNat)
  else if 'a' ≤ ch ∧ ch ≤ 'f' then some (ch.toNat - 'a'.toNat + 10)
  else if 'A' ≤ ch ∧ ch ≤ 'F' then some (ch.toNat - 'A'.toNat + 10)
  else none

/-- Pairs of hex digits to bytes; fails on a non-hex digit or an odd count. -/
def _hex_pairs_to_bytes : List Char → Option (List Nat)
  | [] => some []
  | [_] => none
  | a :: b :: rest =>
    match _hex_digit_value a, _hex_digit_value b, _hex_pairs_to_bytes rest with
    | some va, some vb, some bs => some ((va * 16 + vb) :: bs)
    | _, _, _ => none

/-- Modelled from the spec boundary: eth-utils `remove_0x_prefix` over the
character list of a hex string — drops a leading "0x" or "0X" marker. -/
def strip_hex_marker (cs : List Char) : List Char :=
  match cs with
  | '0' :: 'x' :: rest => rest
  | '0' :: 'X' :: rest => rest
  | _ => cs

/-- Modelled from the spec boundary: eth-utils `to_bytes` applied to a hex
string — an odd-length input gets a leading zero digit after marker
removal, and decoding fails (`ValueError`) on non-hex characters. -/
def hexstr_to_bytes (s : String) : Option (List Nat) :=
  let digits :=
    if s.length % 2 == 1 then '0' :: strip_hex_marker s.data
    else strip_hex_marker s.data
  _hex_pairs_to_bytes digits

/-- Return topic signature as bytes (`log_topic_to_bytes`, lines 657-674):
eth-utils `hexstr_if_str(to_bytes, log_topic)` parses string topics as hex
and passes byte-string topics through unchanged. -/
def log_topic_to_bytes (log_topic : Topic) : Option (List Nat) :=
  match log_topic with
  | .hexStr s => hexstr_to_bytes s
  | .bytes bs => some bs

/-- Return topics for an event ABI (`get_event_log_topics`, lines 612-654):
an absent topic list is treated as empty; anonymous events return the
topics unchanged; a non-anonymous event with no topics raises
`MismatchedABI`; a first topic differing from the event's computed log
topic raises `MismatchedABI`; otherwise the topics after the first are
returned in order. -/
def get_event_log_topics (c : Codec) (event_abi : ABIElement)
    (topics : Option (List Topic)) : Except TopicError (List Topic) :=
  let ts := topics.getD []
  if event_abi.anonymous then Except.ok ts
  else
    match ts with
    | [] => Except.error (TopicError.mismatchedABI
        "Expected non-anonymous event to have 1 or more topics")
    | first :: rest =>
      match log_topic_to_bytes first with
      | none => Except.error TopicError.invalidHex
      | some first_bytes =>
        if c.event_abi_to_log_topic event_abi ≠ first_bytes then
          Except.error (TopicError.mismatchedABI
            "The event signature did not match the provided ABI")
        else Except.ok rest

/-- Modelled from the spec: TypeString inspection — this core recognizes
only the "string" base type of a type string (eth-abi
`parse_type_string(type_string).base`, the leading alphabetic run). -/
def type_string_base (t : String) : String :=
  String.mk (t.data.takeWhile Char.isAlpha)

/-- Modelled from the spec: TypeString inspection — array-ness of a type
string (eth-abi `parse_type_string(type_string).arrlist is not None`,
the presence of a bracket group). -/
def type_string_is_array (t : String) : Bool :=
  t.data.contains '['

/-- Decodes utf-8 bytes to strings (`decode_utf8_bytes` composed with the
`normalize_to_text` formatter, filters.py lines 235-240): non-text values
are decoded, text values pass through.  Decoding a value that is neither
text nor bytes is a Python type error; such values do not arise from the
codec at string types and pass through unchanged in the embedding. -/
def normalize_to_text (c : Codec) (v : Value) : Value :=
  match v with
  | .vstr s => .vstr s
  | .vbytes bs => .vstr (c.decodeUtf8 bs)
  | other => other

/-- Decodes utf-8 bytes to strings for abi string values
(`normalize_data_values`, filters.py lines 243-255): applied element-wise
for string arrays.  A non-list-like data value at a string array type
would be iterated by the source; it passes through unchanged here. -/
def normalize_data_values (c : Codec) (type_string : String)
    (data_value : Value) : Value :=
  if type_string_base type_string == "string" then
    if type_string_is_array type_string then
      match data_value with
      | .vlist values => .vlist (values.map (normalize_to_text c))
      | other => other
    else normalize_to_text c data_value
  else data_value

/-- Errors raised by `match_fn`: `wrongAbiType` models the `ValueError`
whose message formats the offending value and the expected abi type;
`notEnoughValues` models the `ValueError` raised when
`zip(*match_values_and_abi)` unpacks an empty collection. -/
inductive MatchError where
  | wrongAbiType (value : Value) (abi_type : String)
  | notEnoughValues
deriving DecidableEq

/-- Boolean success of an `Except` computation. -/
def exceptOk {ε α : Type} : Except ε α → Bool
  | Except.ok _ => true
  | Except.error _ => false

/-- The inner loop of `match_fn` over the match values of one filter pair
(filters.py lines 276-285): values are examined in order; a value the
codec reports non-encodable raises `ValueError`; a value equal to the
normalized data breaks with a match; exhausting the values without a
break signals the for-else `return False`. -/
def _match_values_loop (c : Codec) (abi_type : String) (normalized : Value) :
    List Value → Except MatchError Bool
  | [] => Except.ok false
  | v :: rest =>
    if !(c.is_encodable abi_type v) then
      Except.error (MatchError.wrongAbiType v abi_type)
    else if v = normalized then Except.ok true
    else _match_values_loop c abi_type normalized rest

/-- Truncating three-way zip, as Python `zip`. -/
def zip3 {α β γ : Type} : List α → List β → List γ → List (α × β × γ)
  | a :: as, b :: bs, g :: gs => (a, b, g) :: zip3 as bs gs
  | _, _, _ => []

/-- The outer loop of `match_fn` over decoded values, match values, and abi
types (filters.py lines 270-287): a `None` match-value entry is skipped; a
pair whose inner loop matched continues; a pair with no match returns
false; a raise propagates; exhausting the pairs returns true. -/
def _match_fn_loop (c : Codec) :
    List (Value × Option (List Value) × String) → Except MatchError Bool
  | [] => Except.ok true
  | (data_value, match_values, abi_type) :: rest =>
    match match_values with
    | none => _match_fn_loop c rest
    | some mvs =>
      let normalized_data := normalize_data_values c abi_type data_value
      match _match_values_loop c abi_type normalized_data mvs with
      | Except.error e => Except.error e
      | Except.ok true => _match_fn_loop c rest
      | Except.ok false => Except.ok false

/-- Match function used for filtering non-indexed event arguments
(`match_fn`, filters.py lines 258-287).  `zip(*match_values_and_abi)` on
an empty collection raises `ValueError` in Python; the embedding returns
the corresponding error.  Otherwise the declared types are unzipped, the
data payload is decoded at those types, and the zipped triples are matched
pairwise. -/
def match_fn (c : Codec) (match_values_and_abi : List (String × Option (List Value)))
    (data : List Nat) : Except MatchError Bool :=
  match match_values_and_abi with
  | [] => Except.error MatchError.notEnoughValues
  | _ =>
    let abi_types := match_values_and_abi.map Prod.fst
    let all_match_values := match_values_and_abi.map Prod.snd
    let decoded_values := c.decode abi_types data
    _match_fn_loop c (zip3 decoded_values all_match_values abi_types)

/-
Concrete fixtures used by witnesses and counterexamples.
-/

/-- A one-argument function descriptor taking a uint256. -/
def fooUint : ABIElement :=
  { kind := "function", name := some "foo",
    inputs := [{ name := "a", type := "uint256" }] }

/-- An overload of `foo` taking a string. -/
def fooStr : ABIElement :=
  { kind := "function", name := some "foo",
    inputs := [{ name := "a", type := "string" }] }

/-- A zero-argument function descriptor. -/
def barNoArgs : ABIElement := { kind := "function", name := some "bar" }

/-- A fallback descriptor. -/
def fbElem : ABIElement := { kind := "fallback" }

/-- A second, distinct fallback descriptor. -/
def fbElem2 : ABIElement := { kind := "fallback", name := some "dup" }

/-- A receive descriptor. -/
def rcElem : ABIElement := { kind := "receive" }

/-- A constructor descriptor. -/
def ctElem : ABIElement := { kind := "constructor" }

/-- A non-anonymous one-argument event descriptor. -/
def evElem : ABIElement :=
  { kind := "event", name := some "Ev",
    inputs := [{ name := "s", type := "uint256" }] }

/-- An anonymous event descriptor. -/
def evAnon : ABIElement :=
  { kind := "event", name := some "Anon",
    inputs := [{ name := "s", type := "uint256" }], anonymous := true }

/-- A small concrete codec: ints encode at uint256, strings at string;
normalization accepts exactly positional arguments of declared arity;
alignment pairs declared types with the normalized arguments. -/
instance {ε α : Type} [DecidableEq ε] [DecidableEq α] :
    DecidableEq (Except ε α) := fun a b =>
  match a, b with
  | Except.ok x, Except.ok y =>
    match decEq x y with
    | isTrue h => isTrue (by rw [h])
    | isFalse h => isFalse (fun hh => h (by cases hh; rfl))
  | Except.ok _, Except.error _ => isFalse (fun h => Except.noConfusion h)
  | Except.error _, Except.ok _ => isFalse (fun h => Except.noConfusion h)
  | Except.error x, Except.error y =>
    match decEq x y with
    | isTrue h => isTrue (by rw [h])
    | isFalse h => isFalse (fun hh => h (by cases hh; rfl))

def simpleCodec : Codec where
  is_encodable t v :=
    match v with
    | .vint _ => t == "uint256"
    | .vstr _ => t == "string"
    | _ => false
  get_normalized_abi_inputs el args kwargs :=
    if kwargs.isEmpty && args.length == el.inputs.length then some args
    else none
  get_aligned_abi_inputs el norm := some (el.inputs.map ABIParam.type, norm)
  function_abi_to_4byte_selector _ := [1, 2, 3, 4]
  abi_to_signature el := (el.name.getD el.kind) ++ "()"
  event_abi_to_log_topic _ := [171]
  decode ts _ := ts.map (fun t => if t == "string" then Value.vbytes [104, 105]
    else Value.vint 7)
  is_checksum_address _ := false
  decodeUtf8 _ := "hi"

/-
Helper lemmas about the filtering pipeline.
-/

/-- Membership in the name filter forces a Function/Event/Error kind and the
matching name. -/
theorem mem_filter_abi_by_name {el : ABIElement} {s : String}
    {abi : List ABIElement} (h : el ∈ filter_abi_by_name s abi) :
    el ∈ abi ∧
      (el.kind = "function" ∨ el.kind = "event" ∨ el.kind = "error") ∧
      el.name = some s := by
  have h2 := List.mem_filter.mp h
  have h3 := h2.2
  simp only [Bool.and_eq_true, Bool.or_eq_true, beq_iff_eq] at h3
  exact ⟨h2.1, or_assoc.mp h3.1, h3.2⟩

/-- Membership in the arity filter forces a non-fallback, non-receive kind
and the matching arity. -/
theorem mem_filter_by_argument_count {el : ABIElement} {n : Nat}
    {l : List ABIElement} (h : el ∈ _filter_by_argument_count n l) :
    el ∈ l ∧ el.kind ≠ "fallback" ∧ el.kind ≠ "receive" ∧
      el.inputs.length = n := by
  have h2 := List.mem_filter.mp h
  refine ⟨h2.1, ?_⟩
  have h3 := h2.2
  simp only [Bool.and_eq_true, bne_iff_ne, ne_eq, beq_iff_eq] at h3
  exact ⟨h3.1.1, h3.1.2, h3.2⟩

/-- Membership in the encodability filter forces a positive probe. -/
theorem mem_filter_by_encodability {c : Codec} {el : ABIElement}
    {l : List ABIElement} {args : List Value} {kwargs : List (String × Value)}
    (h : el ∈ _filter_by_encodability c l args kwargs) :
    el ∈ l ∧ check_if_arguments_can_be_encoded c el args kwargs = true := by
  have h2 := List.mem_filter.mp h
  exact ⟨h2.1, h2.2⟩

/-- The six recognized kind tags pass `_element_abi_to_type` unchanged. -/
theorem element_abi_to_type_ok {el : ABIElement}
    (h : el.kind = "function" ∨ el.kind = "event" ∨ el.kind = "error") :
    _element_abi_to_type el = Except.ok el := by
  rcases h with h | h | h <;> simp [_element_abi_to_type, h]

/-- A positive encodability probe on a non-fallback, non-receive element
yields successful normalization with matching arity, successful alignment,
and encodability of every aligned pair. -/
theorem check_encodable_true_elim {c : Codec} {el : ABIElement}
    {args : List Value} {kwargs : List (String × Value)}
    (hk1 : el.kind ≠ "fallback") (hk2 : el.kind ≠ "receive")
    (h : check_if_arguments_can_be_encoded c el args kwargs = true) :
    ∃ norm types aligned,
      c.get_normalized_abi_inputs el args kwargs = some norm ∧
      el.inputs.length = norm.length ∧
      c.get_aligned_abi_inputs el norm = some (types, aligned) ∧
      ∀ ta ∈ types.zip aligned, c.is_encodable ta.1 ta.2 = true := by
  unfold check_if_arguments_can_be_encoded at h
  rw [if_neg (by simp [hk1, hk2])] at h
  split at h
  · simp at h
  · rename_i norm hn
    split at h
    · simp at h
    · rename_i hlen
      split at h
      · simp at h
      · rename_i types aligned ha
        refine ⟨norm, types, aligned, hn, by simpa using hlen, ha, ?_⟩
        intro ta hta
        simpa using List.all_eq_true.mp h ta hta

/-- A six-kind element passes `_element_abi_to_type` only by identity. -/
theorem element_abi_to_type_eq_ok {x el : ABIElement}
    (h : _element_abi_to_type x = Except.ok el) : x = el := by
  unfold _element_abi_to_type at h
  split at h
  · cases h; rfl
  · exact Except.noConfusion h

/-- Function/Event/Error kinds are distinct from the special kinds. -/
theorem kind_ne_special_of_mem_name_filter {el : ABIElement} {s : String}
    {abi : List ABIElement} (h : el ∈ filter_abi_by_name s abi) :
    el.kind ≠ "constructor" ∧ el.kind ≠ "fallback" ∧ el.kind ≠ "receive" := by
  rcases (mem_filter_abi_by_name h).2.1 with hk | hk | hk <;>
    exact ⟨by rw [hk]; decide, by rw [hk]; decide, by rw [hk]; decide⟩

/-- The head of a type filter has the filtered kind. -/
theorem head_kind_of_filter_abi_by_type {t : String} {el : ABIElement}
    {rest abi : List ABIElement}
    (h : filter_abi_by_type t abi = el :: rest) : el.kind = t := by
  have hmem : el ∈ filter_abi_by_type t abi := by rw [h]; exact List.mem_cons_self el rest
  have := (List.mem_filter.mp hmem).2
  exact beq_iff_eq.mp this

/-- For an ordinary textual identifier (none of the three special names),
`get_abi_element` reduces to the name-resolution branch. -/
theorem get_abi_element_text_eq (c : Codec) (abi : List ABIElement)
    (s : String) (args : List Value) (kwargs : List (String × Value))
    (hs1 : s ≠ "fallback") (hs2 : s ≠ "receive") (hs3 : s ≠ "constructor") :
    get_abi_element c abi (Identifier.text s) args kwargs =
      _get_abi_element_by_name c abi s args kwargs := by
  have h1 : ¬(Identifier.text s = Identifier.fallbackFn ∨
      Identifier.text s = Identifier.text "fallback") := by
    rintro (h | h)
    · exact Identifier.noConfusion h
    · exact hs1 (by injection h)
  have h2 : ¬(Identifier.text s = Identifier.receiveFn ∨
      Identifier.text s = Identifier.text "receive") := by
    rintro (h | h)
    · exact Identifier.noConfusion h
    · exact hs2 (by injection h)
  unfold get_abi_element
  rw [if_neg h1, if_neg h2]
  exact if_neg hs3

/-- C3: for every event descriptor and topic sequence (an absent sequence
treated as empty): an anonymous event returns the topics unchanged; a
non-anonymous event with empty topics fails with MismatchedABI; a first
topic that normalizes to bytes differing from the event's computed
signature hash fails with MismatchedABI; otherwise all topics after the
first are returned, preserving order. -/
theorem get_event_log_topics_spec (c : Codec) (event_abi : ABIElement)
    (topics : Option (List Topic)) :
    (event_abi.anonymous = true →
      get_event_log_topics c event_abi topics = Except.ok (topics.getD [])) ∧
    (event_abi.anonymous = false → topics.getD [] = [] →
      get_event_log_topics c event_abi topics =
        Except.error (TopicError.mismatchedABI
          "Expected non-anonymous event to have 1 or more topics")) ∧
    (∀ first rest first_bytes, event_abi.anonymous = false →
      topics.getD [] = first :: rest →
      log_topic_to_bytes first = some first_bytes →
      (first_bytes ≠ c.event_abi_to_log_topic event_abi →
        get_event_log_topics c event_abi topics =
          Except.error (TopicError.mismatchedABI
            "The event signature did not match the provided ABI")) ∧
      (first_bytes = c.event_abi_to_log_topic event_abi →
        get_event_log_topics c event_abi topics = Except.ok rest)) := by
  refine ⟨?_, ?_, ?_⟩
  · intro h
    simp [get_event_log_topics, h]
  · intro h1 h2
    simp [get_event_log_topics, h1, h2]
  · intro first rest first_bytes h1 h2 h3
    constructor
    · intro h4
      simp [get_event_log_topics, h1, h2, h3, Ne.symm h4]
    · intro h4
      simp [get_event_log_topics, h1, h2, h3, h4]

/-- Witness for C3 at a concrete event and topic list. -/
theorem get_event_log_topics_spec_witness :
    get_event_log_topics simpleCodec evElem
      (some [Topic.bytes [171], Topic.hexStr "0x01"]) =
      Except.ok [Topic.hexStr "0x01"] :=
  ((get_event_log_topics_spec simpleCodec evElem
      (some [Topic.bytes [171], Topic.hexStr "0x01"])).2.2
    (Topic.bytes [171]) [Topic.hexStr "0x01"] [171] (by decide) (by decide)
    (by decide)).2 (by decide)

/-- C6: the encodability probe returns a boolean and never raises for
ordinary mismatches: fallback and receive descriptors always yield true; a
normalization failure yields false; after normalization the declared input
arity must equal the normalized-argument count, alignment must succeed,
and every aligned (type, value) pair must be codec-encodable — any single
failure yields false. -/
theorem check_if_arguments_can_be_encoded_spec (c : Codec) (el : ABIElement)
    (args : List Value) (kwargs : List (String × Value)) :
    ((el.kind = "fallback" ∨ el.kind = "receive") →
      check_if_arguments_can_be_encoded c el args kwargs = true) ∧
    (el.kind ≠ "fallback" → el.kind ≠ "receive" →
      (c.get_normalized_abi_inputs el args kwargs = none →
        check_if_arguments_can_be_encoded c el args kwargs = false) ∧
      (∀ norm, c.get_normalized_abi_inputs el args kwargs = some norm →
        (el.inputs.length ≠ norm.length →
          check_if_arguments_can_be_encoded c el args kwargs = false) ∧
        (el.inputs.length = norm.length →
          (c.get_aligned_abi_inputs el norm = none →
            check_if_arguments_can_be_encoded c el args kwargs = false) ∧
          (∀ types aligned,
            c.get_aligned_abi_inputs el norm = some (types, aligned) →
            (check_if_arguments_can_be_encoded c el args kwargs = true ↔
              ∀ ta ∈ types.zip aligned, c.is_encodable ta.1 ta.2 = true))))) := by
  constructor
  · intro h
    rcases h with h | h <;> simp [check_if_arguments_can_be_encoded, h]
  · intro hk1 hk2
    constructor
    · intro hn
      simp [check_if_arguments_can_be_encoded, hk1, hk2, hn]
    · intro norm hn
      constructor
      · intro hlen
        simp [check_if_arguments_can_be_encoded, hk1, hk2, hn, hlen]
      · intro hlen
        constructor
        · intro ha
          simp [check_if_arguments_can_be_encoded, hk1, hk2, hn, hlen, ha]
        · intro types aligned ha
          simp [check_if_arguments_can_be_encoded, hk1, hk2, hn, hlen, ha,
            List.all_eq_true]

/-- Witness for C6 at a concrete descriptor and codec: a uint argument for
a uint256 parameter passes the probe. -/
theorem check_if_arguments_can_be_encoded_spec_witness :
    check_if_arguments_can_be_encoded simpleCodec fooUint [Value.vint 3] []
      = true :=
  (((((check_if_arguments_can_be_encoded_spec simpleCodec fooUint
      [Value.vint 3] []).2 (by decide) (by decide)).2 [Value.vint 3]
      (by decide)).2 (by decide)).2 ["uint256"] [Value.vint 3]
      (by decide)).mpr (by decide)

/-- C7 counterexample: the empty string is a Python text value, so
`get_abi_element` does not fail with the InvalidIdentifier error on it;
it proceeds to name filtering and fails with MismatchedABI instead. -/
theorem empty_identifier_counterexample :
    get_abi_element simpleCodec [] (Identifier.text "") [] [] =
      Except.error (AbiError.mismatchedABI
        { function_identifier := "", collapsed_args := "",
          collapsed_kwargs := [], matching_function_signatures := [],
          diagnosis :=
            "Function invocation failed due to improper number of arguments." })
      := by decide

/-- C7 amended: for every identifier that is not a text value and not one
of the fallback/receive sentinels (modelling None and every other
non-string Python value), resolution fails with the InvalidIdentifier
error before any descriptor filtering takes place (the result does not
depend on the description, the arguments, or the codec). -/
theorem invalid_identifier_spec (c : Codec) (abi : List ABIElement)
    (args : List Value) (kwargs : List (String × Value)) :
    get_abi_element c abi Identifier.nonText args kwargs =
      Except.error (AbiError.invalidIdentifier
        "Unsupported function identifier") := by
  unfold get_abi_element
  rw [if_neg (by decide), if_neg (by decide)]

/-- C5 counterexample: a description with two fallback descriptors does not
fail with NotFound — the fallback marker resolves to the first entry. -/
theorem fallback_duplicates_counterexample :
    get_abi_element simpleCodec [fbElem, fbElem2] Identifier.fallbackFn [] []
      = Except.ok fbElem := by decide

/-- C5 amended: requesting the fallback, receive, or constructor descriptor
via its dedicated identifier fails with the corresponding NotFound error
exactly when no descriptor of that kind exists; when one or more exist
(duplicates are not deduplicated), the first one is returned. -/
theorem notfound_cardinality_spec (c : Codec) (abi : List ABIElement)
    (args : List Value) (kwargs : List (String × Value)) :
    (filter_abi_by_type "fallback" abi = [] →
      get_abi_element c abi Identifier.fallbackFn args kwargs =
        Except.error (AbiError.fallbackNotFound
          "No fallback function was found in the contract ABI.")) ∧
    (∀ el rest, filter_abi_by_type "fallback" abi = el :: rest →
      get_abi_element c abi Identifier.fallbackFn args kwargs =
        Except.ok el) ∧
    (filter_abi_by_type "receive" abi = [] →
      get_abi_element c abi Identifier.receiveFn args kwargs =
        Except.error (AbiError.receiveNotFound
          "No receive function was found in the contract ABI.")) ∧
    (∀ el rest, filter_abi_by_type "receive" abi = el :: rest →
      get_abi_element c abi Identifier.receiveFn args kwargs =
        Except.ok el) ∧
    (filter_abi_by_type "constructor" abi = [] →
      get_abi_element c abi (Identifier.text "constructor") args kwargs =
        Except.error (AbiError.constructorNotFound
          "No constructor function was found in the contract ABI.")) ∧
    (∀ el rest, filter_abi_by_type "constructor" abi = el :: rest →
      get_abi_element c abi (Identifier.text "constructor") args kwargs =
        Except.ok el) := by
  have hfb : get_abi_element c abi Identifier.fallbackFn args kwargs =
      get_fallback_function_abi abi := by
    unfold get_abi_element
    rw [if_pos (Or.inl rfl)]
  have hrc : get_abi_element c abi Identifier.receiveFn args kwargs =
      get_receive_function_abi abi := by
    unfold get_abi_element
    rw [if_neg (by decide), if_pos (Or.inl rfl)]
  have hct : get_abi_element c abi (Identifier.text "constructor") args kwargs
      = get_constructor_function_abi abi := by
    unfold get_abi_element
    rw [if_neg (by decide), if_neg (by decide)]
    show (if "constructor" = "constructor" then get_constructor_function_abi abi
      else _get_abi_element_by_name c abi "constructor" args kwargs) =
      get_constructor_function_abi abi
    rw [if_pos rfl]
  refine ⟨?_, ?_, ?_, ?_, ?_, ?_⟩
  · intro h
    rw [hfb]
    unfold get_fallback_function_abi
    rw [h]
  · intro el rest h
    rw [hfb]
    unfold get_fallback_function_abi
    rw [h]
    simp [head_kind_of_filter_abi_by_type h]
  · intro h
    rw [hrc]
    unfold get_receive_function_abi
    rw [h]
  · intro el rest h
    rw [hrc]
    unfold get_receive_function_abi
    rw [h]
    simp [head_kind_of_filter_abi_by_type h]
  · intro h
    rw [hct]
    unfold get_constructor_function_abi
    rw [h]
  · intro el rest h
    rw [hct]
    unfold get_constructor_function_abi
    rw [h]
    simp [head_kind_of_filter_abi_by_type h]

/-- Witness for the amended C5: a description with no fallback entry fails
with the fallback NotFound error. -/
theorem notfound_cardinality_spec_witness :
    get_abi_element simpleCodec [fooUint] Identifier.fallbackFn [] [] =
      Except.error (AbiError.fallbackNotFound
        "No fallback function was found in the contract ABI.") :=
  (notfound_cardinality_spec simpleCodec [fooUint] [] []).1 (by decide)

/-- C8 counterexample: resolving the fallback marker through
`get_abi_element_info` yields a result whose selector is present — the
source computes `encode_hex(function_abi_to_4byte_selector(fn_abi))`
for fallback and receive elements too, so the selector is not absent. -/
theorem fallback_info_counterexample :
    get_abi_element_info simpleCodec [fbElem] Identifier.fallbackFn [] [] =
      Except.ok { abi := fbElem, selector := "0x01020304", arguments := [] }
      := by decide

/-- C8 amended: for every description containing exactly one fallback (or
receive) descriptor, resolving via the fallback (or receive) marker
returns a result bundle whose arguments are empty and whose selector is
present, computed from the descriptor by the codec's selector derivation. -/
theorem fallback_receive_info_spec (c : Codec) (abi : List ABIElement)
    (args : List Value) (kwargs : List (String × Value)) :
    (∀ el, filter_abi_by_type "fallback" abi = [el] →
      get_abi_element_info c abi Identifier.fallbackFn args kwargs =
        Except.ok (ABIElementInfo.mk el
          (encode_hex (c.function_abi_to_4byte_selector el)) [])) ∧
    (∀ el, filter_abi_by_type "receive" abi = [el] →
      get_abi_element_info c abi Identifier.receiveFn args kwargs =
        Except.ok (ABIElementInfo.mk el
          (encode_hex (c.function_abi_to_4byte_selector el)) [])) := by
  constructor
  · intro el h
    have hres := ((notfound_cardinality_spec c abi args kwargs).2.1) el [] h
    unfold get_abi_element_info
    rw [hres]
    simp [head_kind_of_filter_abi_by_type h]
  · intro el h
    have hres := ((notfound_cardinality_spec c abi args kwargs).2.2.2.1) el [] h
    unfold get_abi_element_info
    rw [hres]
    simp [head_kind_of_filter_abi_by_type h]

/-- Witness for the amended C8 at a concrete description. -/
theorem fallback_receive_info_spec_witness :
    get_abi_element_info simpleCodec [rcElem] Identifier.receiveFn [] [] =
      Except.ok { abi := rcElem, selector := "0x01020304", arguments := [] }
      :=
  (fallback_receive_info_spec simpleCodec [rcElem] [] []).2 rcElem (by decide)

/-- On a list whose members all come from the name filter, the arity filter
at count zero coincides with filtering for zero declared inputs. -/
theorem arity_filter_zero_of_name_filtered (s : String)
    (abi : List ABIElement) :
    _filter_by_argument_count 0 (filter_abi_by_name s abi) =
      (filter_abi_by_name s abi).filter (fun e => e.inputs.length == 0) := by
  unfold _filter_by_argument_count
  apply List.filter_congr
  intro x hx
  rcases kind_ne_special_of_mem_name_filter hx with ⟨_, hfb, hrc⟩
  simp [hfb, hrc]

/-- C4: if no positional and no named arguments are supplied and exactly one
name-matched descriptor has zero declared inputs, resolution returns that
descriptor directly via the fast path for every codec — in particular for
codecs rejecting everything, so the codec's encodability check is never
consulted. -/
theorem fast_path_spec (abi : List ABIElement) (s : String) (el : ABIElement)
    (hs1 : s ≠ "fallback") (hs2 : s ≠ "receive") (hs3 : s ≠ "constructor")
    (h : (filter_abi_by_name s abi).filter (fun e => e.inputs.length == 0) =
      [el]) :
    ∀ c : Codec,
      get_abi_element c abi (Identifier.text s) [] [] = Except.ok el := by
  intro c
  rw [get_abi_element_text_eq c abi s [] [] hs1 hs2 hs3]
  have hM : _filter_by_argument_count (([] : List Value).length +
      ([] : List (String × Value)).length) (filter_abi_by_name s abi) = [el] := by
    simpa [arity_filter_zero_of_name_filtered] using h
  have hmem : el ∈ filter_abi_by_name s abi := by
    have : el ∈ (filter_abi_by_name s abi).filter
        (fun e => e.inputs.length == 0) := by
      rw [h]; exact List.mem_singleton.mpr rfl
    exact (List.mem_filter.mp this).1
  simp only [_get_abi_element_by_name]
  rw [hM]
  exact element_abi_to_type_ok (mem_filter_abi_by_name hmem).2.1

/-- Witness for C4: a unique zero-argument function resolves with no
arguments under every codec; instantiated at the concrete codec. -/
theorem fast_path_spec_witness :
    get_abi_element simpleCodec [fooUint, barNoArgs] (Identifier.text "bar")
      [] [] = Except.ok barNoArgs :=
  fast_path_spec [fooUint, barNoArgs] "bar" barNoArgs (by decide) (by decide)
    (by decide) (by decide) simpleCodec

/-- C9: for every ordinary textual identifier, a successful resolution
returns a name-matched descriptor, whose kind is therefore never
Constructor, Fallback, or Receive — those are excluded from the name and
arity candidate filtering and reachable only via their dedicated
markers. -/
theorem ordinary_identifier_excludes_special (c : Codec)
    (abi : List ABIElement) (s : String) (args : List Value)
    (kwargs : List (String × Value)) (el : ABIElement)
    (hs1 : s ≠ "fallback") (hs2 : s ≠ "receive") (hs3 : s ≠ "constructor")
    (h : get_abi_element c abi (Identifier.text s) args kwargs =
      Except.ok el) :
    el ∈ filter_abi_by_name s abi ∧ el.kind ≠ "constructor" ∧
      el.kind ≠ "fallback" ∧ el.kind ≠ "receive" := by
  rw [get_abi_element_text_eq c abi s args kwargs hs1 hs2 hs3] at h
  simp only [_get_abi_element_by_name] at h
  have hmem : el ∈ filter_abi_by_name s abi := by
    split at h
    · rename_i only heq hb
      have hx := element_abi_to_type_eq_ok h
      subst hx
      have : only ∈ _filter_by_argument_count (args.length + kwargs.length)
          (filter_abi_by_name s abi) := by
        rw [heq]; exact List.mem_singleton.mpr rfl
      exact (mem_filter_by_argument_count this).1
    · rename_i arity_matches hnofast
      split at h
      · rename_i only heq
        have hx := element_abi_to_type_eq_ok h
        subst hx
        have : only ∈ _filter_by_encodability c
            (_filter_by_argument_count (args.length + kwargs.length)
              (filter_abi_by_name s abi)) args kwargs := by
          rw [heq]; exact List.mem_singleton.mpr rfl
        exact (mem_filter_by_argument_count
          (mem_filter_by_encodability this).1).1
      · exact Except.noConfusion h
  exact ⟨hmem, kind_ne_special_of_mem_name_filter hmem⟩

/-- Witness for C9: resolving an ordinary name on a description that also
holds constructor, fallback, and receive entries returns the name-matched
function, which is none of the special kinds. -/
theorem ordinary_identifier_excludes_special_witness :
    fooUint ∈ filter_abi_by_name "foo" [ctElem, fbElem, rcElem, fooUint] ∧
      fooUint.kind ≠ "constructor" ∧ fooUint.kind ≠ "fallback" ∧
      fooUint.kind ≠ "receive" :=
  ordinary_identifier_excludes_special simpleCodec
    [ctElem, fbElem, rcElem, fooUint] "foo" [Value.vint 3] [] fooUint
    (by decide) (by decide) (by decide) (by decide)

/-- A filter of a one-element list yielding a one-element list forces the
two elements to coincide. -/
theorem filter_singleton_eq {α : Type} {p : α → Bool} {x el : α}
    (h : List.filter p [x] = [el]) : x = el := by
  by_cases hp : p x
  · rw [List.filter_singleton] at h
    simp [hp] at h
    exact h
  · rw [List.filter_singleton] at h
    simp [hp] at h

/-- C1: if exactly one descriptor among the name-matched, arity-matched
candidates passes normalization and full encodability, then resolution
returns that descriptor, and the info bundle carries its selector and its
arguments normalized into declared parameter order and aligned by the
codec, without failing. -/
theorem unique_encoding_match_spec (c : Codec) (abi : List ABIElement)
    (s : String) (args : List Value) (kwargs : List (String × Value))
    (el : ABIElement)
    (hs1 : s ≠ "fallback") (hs2 : s ≠ "receive") (hs3 : s ≠ "constructor")
    (henc : _filter_by_encodability c
      (_filter_by_argument_count (args.length + kwargs.length)
        (filter_abi_by_name s abi)) args kwargs = [el]) :
    ∃ norm types aligned,
      c.get_normalized_abi_inputs el args kwargs = some norm ∧
      c.get_aligned_abi_inputs el norm = some (types, aligned) ∧
      get_abi_element c abi (Identifier.text s) args kwargs = Except.ok el ∧
      get_abi_element_info c abi (Identifier.text s) args kwargs =
        Except.ok (ABIElementInfo.mk el
          (encode_hex (c.function_abi_to_4byte_selector el)) aligned) := by
  have hmem_enc : el ∈ _filter_by_encodability c
      (_filter_by_argument_count (args.length + kwargs.length)
        (filter_abi_by_name s abi)) args kwargs := by
    rw [henc]; exact List.mem_singleton.mpr rfl
  obtain ⟨hmem_M, hcheck⟩ := mem_filter_by_encodability hmem_enc
  obtain ⟨hmem_name, hkfb, hkrc, _⟩ := mem_filter_by_argument_count hmem_M
  obtain ⟨norm, types, aligned, hn, _, ha, _⟩ :=
    check_encodable_true_elim hkfb hkrc hcheck
  have hkinds := (mem_filter_abi_by_name hmem_name).2.1
  have hok : get_abi_element c abi (Identifier.text s) args kwargs =
      Except.ok el := by
    rw [get_abi_element_text_eq c abi s args kwargs hs1 hs2 hs3]
    simp only [_get_abi_element_by_name]
    rcases hM : _filter_by_argument_count (args.length + kwargs.length)
        (filter_abi_by_name s abi) with _ | ⟨x, _ | ⟨y, rest⟩⟩
    · rw [hM] at henc
      exact absurd henc (by simp [_filter_by_encodability])
    · rw [hM] at henc
      have hx : x = el := filter_singleton_eq henc
      subst hx
      cases hb : args.isEmpty && kwargs.isEmpty
      · simp only [hM, hb]
        rw [henc]
        exact element_abi_to_type_ok hkinds
      · simp only [hM, hb]
        exact element_abi_to_type_ok hkinds
    · rw [hM] at henc
      simp only [hM]
      rw [henc]
      exact element_abi_to_type_ok hkinds
  refine ⟨norm, types, aligned, hn, ha, hok, ?_⟩
  have hfb' : (el.kind == "fallback" || el.kind == "receive") = false := by
    simp [hkfb, hkrc]
  simp only [get_abi_element_info, hok, hfb', hn, ha]
  rw [if_neg Bool.false_ne_true]

/-- Witness for C1 at a concrete overload set and arguments. -/
theorem unique_encoding_match_spec_witness :
    get_abi_element simpleCodec [fooUint, barNoArgs] (Identifier.text "foo")
      [Value.vint 3] [] = Except.ok fooUint := by
  obtain ⟨n, t, a, h1, h2, h3, h4⟩ := unique_encoding_match_spec simpleCodec
    [fooUint, barNoArgs] "foo" [Value.vint 3] [] fooUint (by decide)
    (by decide) (by decide) (by decide)
  exact h3

/-- The arity-matched candidate set computed by `get_abi_element` (lines
363-365): name-matched descriptors whose input arity equals the argument
count. -/
def arg_count_matches (abi : List ABIElement) (s : String)
    (args : List Value) (kwargs : List (String × Value)) : List ABIElement :=
  _filter_by_argument_count (args.length + kwargs.length)
    (filter_abi_by_name s abi)

/-- The encoding-matched candidate set computed by `get_abi_element` (lines
370-372): arity-matched descriptors passing the encodability probe. -/
def encoding_matches (c : Codec) (abi : List ABIElement) (s : String)
    (args : List Value) (kwargs : List (String × Value)) : List ABIElement :=
  _filter_by_encodability c (arg_count_matches abi s args kwargs) args kwargs

/-- C2: every resolution with an ordinary textual identifier that reaches
candidate filtering (past the zero-argument fast path) and does not end
with exactly one encoding match fails with MismatchedABI; its diagnosis
sentence is the wrong-argument-count one exactly when the arity-match set
is empty, otherwise the no-matching-argument-types one exactly when the
encoding-match set is empty, otherwise the ambiguity one; and the
diagnosis lists the signatures of every name-matched descriptor,
independent of arity. -/
theorem mismatched_abi_diagnosis_spec (c : Codec) (abi : List ABIElement)
    (s : String) (args : List Value) (kwargs : List (String × Value))
    (hs1 : s ≠ "fallback") (hs2 : s ≠ "receive") (hs3 : s ≠ "constructor")
    (hfast : ¬(args = [] ∧ kwargs = [] ∧
      (arg_count_matches abi s args kwargs).length = 1))
    (henc : (encoding_matches c abi s args kwargs).length ≠ 1) :
    get_abi_element c abi (Identifier.text s) args kwargs =
      Except.error (AbiError.mismatchedABI
        (_mismatched_abi_error_diagnosis c s
          ((filter_abi_by_name s abi).map c.abi_to_signature)
          (arg_count_matches abi s args kwargs).length
          (encoding_matches c abi s args kwargs).length args kwargs)) ∧
    ((_mismatched_abi_error_diagnosis c s
        ((filter_abi_by_name s abi).map c.abi_to_signature)
        (arg_count_matches abi s args kwargs).length
        (encoding_matches c abi s args kwargs).length args
        kwargs).diagnosis =
      "Function invocation failed due to improper number of arguments." ↔
      (arg_count_matches abi s args kwargs).length = 0) ∧
    ((arg_count_matches abi s args kwargs).length ≠ 0 →
      ((_mismatched_abi_error_diagnosis c s
          ((filter_abi_by_name s abi).map c.abi_to_signature)
          (arg_count_matches abi s args kwargs).length
          (encoding_matches c abi s args kwargs).length args
          kwargs).diagnosis =
        "Function invocation failed due to no matching argument types." ↔
        (encoding_matches c abi s args kwargs).length = 0)) ∧
    ((arg_count_matches abi s args kwargs).length ≠ 0 →
      (encoding_matches c abi s args kwargs).length ≠ 0 →
      (_mismatched_abi_error_diagnosis c s
          ((filter_abi_by_name s abi).map c.abi_to_signature)
          (arg_count_matches abi s args kwargs).length
          (encoding_matches c abi s args kwargs).length args
          kwargs).diagnosis =
        "Ambiguous argument encoding. Provided arguments can be encoded to multiple functions matching this call.")
    := by
  have hmain : get_abi_element c abi (Identifier.text s) args kwargs =
      Except.error (AbiError.mismatchedABI
        (_mismatched_abi_error_diagnosis c s
          ((filter_abi_by_name s abi).map c.abi_to_signature)
          (arg_count_matches abi s args kwargs).length
          (encoding_matches c abi s args kwargs).length args kwargs)) := by
    rw [get_abi_element_text_eq c abi s args kwargs hs1 hs2 hs3]
    simp only [_get_abi_element_by_name, arg_count_matches,
      encoding_matches] at hfast henc ⊢
    rcases hM : _filter_by_argument_count (args.length + kwargs.length)
        (filter_abi_by_name s abi) with _ | ⟨x, _ | ⟨y, rest⟩⟩ <;>
      rw [hM] at hfast henc <;>
      cases hb : args.isEmpty && kwargs.isEmpty
    · rcases hE : _filter_by_encodability c ([] : List ABIElement) args kwargs
          with _ | ⟨e, _ | ⟨f, es⟩⟩ <;> rw [hE] at henc <;>
        simp only [hM, hb, hE]
      · exact absurd rfl henc
    · rcases hE : _filter_by_encodability c ([] : List ABIElement) args kwargs
          with _ | ⟨e, _ | ⟨f, es⟩⟩ <;> rw [hE] at henc <;>
        simp only [hM, hb, hE]
      · exact absurd rfl henc
    · rcases hE : _filter_by_encodability c [x] args kwargs
          with _ | ⟨e, _ | ⟨f, es⟩⟩ <;> rw [hE] at henc <;>
        simp only [hM, hb, hE]
      · exact absurd rfl henc
    · exfalso
      apply hfast
      have hb2 := hb
      simp only [Bool.and_eq_true, List.isEmpty_iff] at hb2
      exact ⟨hb2.1, hb2.2, rfl⟩
    · rcases hE : _filter_by_encodability c (x :: y :: rest) args kwargs
          with _ | ⟨e, _ | ⟨f, es⟩⟩ <;> rw [hE] at henc <;>
        simp only [hM, hb, hE]
      · exact absurd rfl henc
    · rcases hE : _filter_by_encodability c (x :: y :: rest) args kwargs
          with _ | ⟨e, _ | ⟨f, es⟩⟩ <;> rw [hE] at henc <;>
        simp only [hM, hb, hE]
      · exact absurd rfl henc
  refine ⟨hmain, ?_, ?_, ?_⟩
  · show _diagnosis_note (arg_count_matches abi s args kwargs).length
        (encoding_matches c abi s args kwargs).length = _ ↔ _
    constructor
    · intro h
      by_contra hA
      unfold _diagnosis_note at h
      rw [if_neg hA] at h
      split at h
      · exact absurd h (by decide)
      · split at h
        · exact absurd h (by decide)
        · exact absurd h (by decide)
    · intro hA
      unfold _diagnosis_note
      rw [if_pos hA]
  · intro hA
    show _diagnosis_note (arg_count_matches abi s args kwargs).length
        (encoding_matches c abi s args kwargs).length = _ ↔ _
    constructor
    · intro h
      by_contra hE0
      unfold _diagnosis_note at h
      rw [if_neg hA, if_neg hE0,
        if_pos (by omega : (encoding_matches c abi s args kwargs).length > 1)]
        at h
      exact absurd h (by decide)
    · intro hE0
      unfold _diagnosis_note
      rw [if_neg hA, if_pos hE0]
  · intro hA hE0
    show _diagnosis_note (arg_count_matches abi s args kwargs).length
        (encoding_matches c abi s args kwargs).length = _
    unfold _diagnosis_note
    rw [if_neg hA, if_neg hE0,
      if_pos (by omega : (encoding_matches c abi s args kwargs).length > 1)]

/-- Witness for C2: a single one-argument overload with a non-encodable
argument fails with the no-matching-argument-types diagnosis. -/
theorem mismatched_abi_diagnosis_spec_witness :
    get_abi_element simpleCodec [fooUint] (Identifier.text "foo")
      [Value.vstr "x"] [] =
      Except.error (AbiError.mismatchedABI
        (_mismatched_abi_error_diagnosis simpleCodec "foo"
          ((filter_abi_by_name "foo" [fooUint]).map
            simpleCodec.abi_to_signature)
          (arg_count_matches [fooUint] "foo" [Value.vstr "x"] []).length
          (encoding_matches simpleCodec [fooUint] "foo"
            [Value.vstr "x"] []).length
          [Value.vstr "x"] [])) :=
  (mismatched_abi_diagnosis_spec simpleCodec [fooUint] "foo"
    [Value.vstr "x"] [] (by decide) (by decide) (by decide) (by decide)
    (by decide)).1

/-- Whether one zipped (decoded value, match values, abi type) triple of the
data filter is matched: an absent (None) match-value entry matches
vacuously; otherwise some match value must equal the decoded data value
after string normalization. -/
def filter_pair_matched (c : Codec)
    (x : Value × Option (List Value) × String) : Bool :=
  match x.2.1 with
  | none => true
  | some mvs => mvs.any (fun v => v == normalize_data_values c x.2.2 x.1)

/-- An inner-loop match implies some match value equals the normalized
data. -/
theorem match_values_loop_ok_true {c : Codec} {t : String} {norm : Value} :
    ∀ {mvs : List Value},
      _match_values_loop c t norm mvs = Except.ok true →
      mvs.any (fun v => v == norm) = true := by
  intro mvs
  induction mvs with
  | nil => intro h; simp [_match_values_loop] at h
  | cons v rest ih =>
    intro h
    unfold _match_values_loop at h
    split at h
    · exact Except.noConfusion h
    · split at h
      · rename_i heq
        simp [heq]
      · rename_i hne
        simp [ih h]

/-- An inner-loop for-else exit implies no match value equals the
normalized data. -/
theorem match_values_loop_ok_false {c : Codec} {t : String} {norm : Value} :
    ∀ {mvs : List Value},
      _match_values_loop c t norm mvs = Except.ok false →
      mvs.any (fun v => v == norm) = false := by
  intro mvs
  induction mvs with
  | nil => intro _; rfl
  | cons v rest ih =>
    intro h
    unfold _match_values_loop at h
    split at h
    · exact Except.noConfusion h
    · split at h
      · exact absurd h (by simp)
      · rename_i hne
        simp [ih h, hne]

/-- The inner loop raises exactly when a non-encodable value occurs with
all earlier values encodable and non-matching; the raise carries that
first non-encodable value. -/
theorem match_values_loop_error_iff (c : Codec) (t : String) (norm : Value) :
    ∀ (mvs : List Value),
      exceptOk (_match_values_loop c t norm mvs) = false ↔
        ∃ pre v post, mvs = pre ++ v :: post ∧
          c.is_encodable t v = false ∧
          (∀ u ∈ pre, c.is_encodable t u = true ∧ u ≠ norm) ∧
          _match_values_loop c t norm mvs =
            Except.error (MatchError.wrongAbiType v t) := by
  intro mvs
  induction mvs with
  | nil =>
    constructor
    · intro h; simp [_match_values_loop, exceptOk] at h
    · rintro ⟨pre, v, post, habs, -⟩
      exact absurd habs (by simp)
  | cons w rest ih =>
    constructor
    · intro h
      by_cases hw : c.is_encodable t w = true
      · unfold _match_values_loop at h
        rw [if_neg (by simp [hw])] at h
        by_cases heq : w = norm
        · rw [if_pos heq] at h
          simp [exceptOk] at h
        · rw [if_neg heq] at h
          obtain ⟨pre, v, post, hsplit, hv, hpre, herr⟩ := ih.mp h
          refine ⟨w :: pre, v, post, by rw [hsplit]; rfl, hv, ?_, ?_⟩
          · intro u hu
            rcases List.mem_cons.mp hu with hu | hu
            · subst hu; exact ⟨hw, heq⟩
            · exact hpre u hu
          · show _match_values_loop c t norm (w :: rest) = _
            unfold _match_values_loop
            rw [if_neg (by simp [hw]), if_neg heq]
            exact herr
      · refine ⟨[], w, rest, rfl, by simpa using hw, by simp, ?_⟩
        show _match_values_loop c t norm (w :: rest) = _
        unfold _match_values_loop
        rw [if_pos (by simpa using hw)]
    · rintro ⟨pre, v, post, -, -, -, herr⟩
      rw [herr]
      rfl

/-- When the outer loop does not raise, it returns true exactly when every
zipped triple is matched. -/
theorem match_fn_loop_ok_iff (c : Codec) :
    ∀ (l : List (Value × Option (List Value) × String)),
      exceptOk (_match_fn_loop c l) = true →
      (_match_fn_loop c l = Except.ok true ↔
        ∀ x ∈ l, filter_pair_matched c x = true) := by
  intro l
  induction l with
  | nil => intro _; simp [_match_fn_loop]
  | cons x rest ih =>
    intro hok
    obtain ⟨dv, mvo, t⟩ := x
    cases mvo with
    | none =>
      have hstep : _match_fn_loop c ((dv, none, t) :: rest) =
          _match_fn_loop c rest := rfl
      rw [hstep] at hok ⊢
      rw [ih hok]
      constructor
      · intro hall y hy
        rcases List.mem_cons.mp hy with hy | hy
        · subst hy; rfl
        · exact hall y hy
      · intro hall y hy
        exact hall y (List.mem_cons_of_mem _ hy)
    | some mvs =>
      cases hinner : _match_values_loop c t (normalize_data_values c t dv)
          mvs with
      | error e =>
        have hstep : _match_fn_loop c ((dv, some mvs, t) :: rest) =
            Except.error e := by
          simp only [_match_fn_loop]
          rw [hinner]
        rw [hstep] at hok
        simp [exceptOk] at hok
      | ok b =>
        cases b with
        | true =>
          have hstep : _match_fn_loop c ((dv, some mvs, t) :: rest) =
              _match_fn_loop c rest := by
            simp only [_match_fn_loop]
            rw [hinner]
          rw [hstep] at hok ⊢
          rw [ih hok]
          have hx : filter_pair_matched c (dv, some mvs, t) = true := by
            unfold filter_pair_matched
            exact match_values_loop_ok_true hinner
          constructor
          · intro hall y hy
            rcases List.mem_cons.mp hy with hy | hy
            · subst hy; exact hx
            · exact hall y hy
          · intro hall y hy
            exact hall y (List.mem_cons_of_mem _ hy)
        | false =>
          have hstep : _match_fn_loop c ((dv, some mvs, t) :: rest) =
              Except.ok false := by
            simp only [_match_fn_loop]
            rw [hinner]
          rw [hstep]
          have hx : filter_pair_matched c (dv, some mvs, t) = false := by
            unfold filter_pair_matched
            exact match_values_loop_ok_false hinner
          constructor
          · intro habs
            exact absurd habs (by simp)
          · intro hall
            have hcontra := hall (dv, some mvs, t) (List.mem_cons_self _ _)
            rw [hx] at hcontra
            exact absurd hcontra (by simp)

/-- C10: when it does not raise, the data-filter match function returns
true exactly when, for each zipped (decoded value, match values, type)
triple whose match values are present, some match value equals the decoded
data value after string normalization; and within one triple, match
values are examined in order — the inner loop raises the wrong-abi-type
ValueError exactly at the first value the codec reports non-encodable,
unless an earlier value in that triple already matched. -/
theorem match_fn_spec (c : Codec)
    (match_values_and_abi : List (String × Option (List Value)))
    (data : List Nat) :
    (exceptOk (match_fn c match_values_and_abi data) = true →
      (match_fn c match_values_and_abi data = Except.ok true ↔
        ∀ x ∈ zip3 (c.decode (match_values_and_abi.map Prod.fst) data)
          (match_values_and_abi.map Prod.snd)
          (match_values_and_abi.map Prod.fst),
          filter_pair_matched c x = true)) ∧
    (∀ t norm mvs,
      exceptOk (_match_values_loop c t norm mvs) = false ↔
        ∃ pre v post, mvs = pre ++ v :: post ∧
          c.is_encodable t v = false ∧
          (∀ u ∈ pre, c.is_encodable t u = true ∧ u ≠ norm) ∧
          _match_values_loop c t norm mvs =
            Except.error (MatchError.wrongAbiType v t)) := by
  constructor
  · cases match_values_and_abi with
    | nil =>
      intro h
      simp [match_fn, exceptOk] at h
    | cons p ps =>
      intro h
      have hrw : match_fn c (p :: ps) data = _match_fn_loop c
          (zip3 (c.decode ((p :: ps).map Prod.fst) data)
            ((p :: ps).map Prod.snd) ((p :: ps).map Prod.fst)) := rfl
      rw [hrw] at h ⊢
      exact match_fn_loop_ok_iff c _ h
  · intro t norm mvs
    exact match_values_loop_error_iff c t norm mvs

/-- Witness for C10: a single uint filter pair whose match value equals the
decoded data yields a match. -/
theorem match_fn_spec_witness :
    match_fn simpleCodec [("uint256", some [Value.vint 7])] [0] =
      Except.ok true :=
  ((match_fn_spec simpleCodec [("uint256", some [Value.vint 7])] [0]).1
    rfl).mpr (of_decide_eq_true rfl)
